import Mathlib

/-!
Shallow embedding of the sync logic of synchToMP3.py (MP3-Synch-Rip).

The script reconciles a local music library with a removable MP3 player:
it discovers the device under /media, enumerates MP3 files at the root and
in an Audiobooks subdirectory on both sides, computes a copy/update/skip/
delete plan keyed by relative destination path, and applies it with plain
copy and unlink calls guarded by a free-space warning and an interactive
confirmation prompt.

Filesystem effects (copy2, unlink, stat, exists) are modelled by explicit
state passing over a device-filesystem record plus oracles deciding which
copies and unlinks succeed.  Relative destination paths are either a bare
filename at the device root or a filename under the Audiobooks directory.
-/

namespace MP3Sync

/-- A relative destination path: a file directly at the device root, or a
file inside the Audiobooks subdirectory.  Mirrors the keys built by
get_source_mp3s and get_device_mp3s in synchToMP3.py. -/
inductive RelPath where
  | root (name : String)
  | audiobooks (name : String)
deriving DecidableEq

/-- The EXCLUDE_FILES denylist of synchToMP3.py (module constant). -/
def EXCLUDE_FILES : List String :=
  ["synchToMP3.py", "downloadYT.py", "readme.md",
   "bashinstructions.md", "Claude.md", "yt-audio.sh"]

/-- ASCII model of Python str.lower (the filenames compared are ASCII). -/
def lowerStr (s : String) : String :=
  String.mk (s.toList.map Char.toLower)

/-- Model of Python str.strip with the usual ASCII whitespace. -/
def pyStrip (s : String) : String :=
  String.mk (((s.toList.dropWhile Char.isWhitespace).reverse.dropWhile
    Char.isWhitespace).reverse)

/-- Model of Python pathlib suffix: the substring from the last dot of the
final component, provided the dot is neither the first nor the last
character; otherwise the empty string. -/
def pySuffix (s : String) : String :=
  let cs := s.toList
  let j := cs.reverse.indexOf '.'
  if j < cs.length then
    let i := cs.length - 1 - j
    if 0 < i ∧ i + 1 < cs.length then String.mk (cs.drop i) else ""
  else ""

/-- The extension filter of both enumerations:
item.suffix.lower() == the mp3 extension. -/
def isMp3Name (name : String) : Bool :=
  lowerStr (pySuffix name) == ".mp3"

/-- A direct child of a scanned directory, as seen by iterdir: its name
and whether it is a regular file. -/
structure FileEntry where
  name : String
  isFile : Bool
deriving DecidableEq

/-- A scan root (the Music directory or the device mount): its direct
children, and the children of the Audiobooks subdirectory when that
directory exists (none models an absent Audiobooks directory). -/
structure ScanRoot where
  entries : List FileEntry
  audiobooks : Option (List FileEntry)
deriving DecidableEq

/-- get_source_mp3s: root-level MP3 children minus the denylist, keyed by
bare filename, followed by the MP3 children of an existing Audiobooks
subdirectory keyed under the Audiobooks prefix (no denylist there). -/
def get_source_mp3s (r : ScanRoot) : List RelPath :=
  ((r.entries.filter fun e =>
      e.isFile && isMp3Name e.name && !(EXCLUDE_FILES.contains e.name)).map
    fun e => RelPath.root e.name)
  ++ (match r.audiobooks with
      | none => []
      | some es =>
        (es.filter fun e => e.isFile && isMp3Name e.name).map
          fun e => RelPath.audiobooks e.name)

/-- get_device_mp3s: the same enumeration on the device side; no denylist
is applied anywhere. -/
def get_device_mp3s (r : ScanRoot) : List RelPath :=
  ((r.entries.filter fun e => e.isFile && isMp3Name e.name).map
    fun e => RelPath.root e.name)
  ++ (match r.audiobooks with
      | none => []
      | some es =>
        (es.filter fun e => e.isFile && isMp3Name e.name).map
          fun e => RelPath.audiobooks e.name)

/-! ### Device filesystem state for the sync phase

For the plan/apply claims only relative paths and byte sizes matter, so a
device state is the association list of its MP3 files (path, size) plus
whether the Audiobooks directory exists.  The sync routines never create
or remove directories, so the single directory flag is the whole directory
state. -/

/-- Device filesystem: files with their byte sizes, and the Audiobooks
directory flag (the device root itself always exists, being the mount
point). -/
structure DeviceFS where
  files : List (RelPath × Nat)
  audiobooksDirExists : Bool
deriving DecidableEq

def keysOf (l : List (RelPath × Nat)) : List RelPath := l.map Prod.fst

/-- stat().st_size of the file at a key, none when the file is absent. -/
def lookupSize (l : List (RelPath × Nat)) (k : RelPath) : Option Nat :=
  (l.find? fun e => decide (e.1 = k)).map Prod.snd

/-- Membership test on keys (Python: key in dict / key in set). -/
def memKey (l : List (RelPath × Nat)) (k : RelPath) : Bool :=
  l.any fun e => decide (e.1 = k)

/-- Write a file of the given size at a key: overwrite in place when the
key is present, append otherwise (dict-assignment semantics of a real
filesystem write). -/
def setFile : List (RelPath × Nat) → RelPath → Nat → List (RelPath × Nat)
  | [], k, s => [(k, s)]
  | e :: l, k, s =>
    if e.1 = k then (k, s) :: setFile l k s else e :: setFile l k s

/-- Unlink the file at a key. -/
def removeFile (l : List (RelPath × Nat)) (k : RelPath) :
    List (RelPath × Nat) :=
  l.filter fun e => decide (e.1 ≠ k)

/-- dest_file.parent.exists(): the parent of a root-level destination is
the mount point itself, the parent of an Audiobooks destination is the
Audiobooks directory. -/
def parentExists (fs : DeviceFS) : RelPath → Bool
  | RelPath.root _ => true
  | RelPath.audiobooks _ => fs.audiobooksDirExists

/-- get_device_mp3s over a DeviceFS: the scan only sees files whose
directory exists (root-level files always, Audiobooks files only when the
Audiobooks directory exists). -/
def deviceListing (fs : DeviceFS) : List (RelPath × Nat) :=
  fs.files.filter fun e => parentExists fs e.1

/-! ### Plan computation (main, lines 298-313) -/

structure SyncPlan where
  toCopy : List RelPath
  toUpdate : List RelPath
  toSkip : List RelPath
  toDelete : List RelPath
deriving DecidableEq

/-- dest_file.exists() and dest_file.stat().st_size != src_file.stat().st_size,
for a source entry (key, source size) against the device files. -/
def sizeDiffers (device : List (RelPath × Nat)) (e : RelPath × Nat) : Bool :=
  match lookupSize device e.1 with
  | some d => decide (d ≠ e.2)
  | none => false

/-- The plan loop of main: for each source entry, copy when the key is
absent from the device names, update when present with a differing size,
skip otherwise; delete is the set difference device names minus source
names. -/
def planOf (source device : List (RelPath × Nat)) : SyncPlan where
  toCopy :=
    (source.filter fun e => !(memKey device e.1)).map Prod.fst
  toUpdate :=
    (source.filter fun e => memKey device e.1 && sizeDiffers device e).map
      Prod.fst
  toSkip :=
    (source.filter fun e => memKey device e.1 && !(sizeDiffers device e)).map
      Prod.fst
  toDelete :=
    (keysOf device).filter fun k => !(memKey source k)

/-- Success/failure oracles for the filesystem effects: whether copy2
succeeds at a key; the state of the destination after a failed copy2
(none: absent, some n: present with size n); whether the best-effort
cleanup unlink succeeds; whether the orphan unlink succeeds. -/
structure FsOracle where
  copyOk : RelPath → Bool
  afterFail : RelPath → Option Nat
  cleanupOk : RelPath → Bool
  unlinkOk : RelPath → Bool

/-! ### sync_files (lines 147-216) -/

structure SyncState where
  fs : DeviceFS
  copied : Nat
  skipped : Nat
  errors : List RelPath
deriving DecidableEq

/-- dest_file.exists() and the two sizes are equal. -/
def sameSize (fs : DeviceFS) (k : RelPath) (s : Nat) : Bool :=
  match lookupSize fs.files k with
  | some d => decide (d = s)
  | none => false

/-- The except-branch of sync_files: after the failed copy2 the
destination is in the oracle-given state; if it exists the cleanup unlink
is attempted, and a cleanup failure is silently ignored, leaving the
partial file in place. -/
def failCleanup (o : FsOracle) (fs : DeviceFS) (k : RelPath) : DeviceFS :=
  match o.afterFail k with
  | none => { fs with files := removeFile fs.files k }
  | some n =>
    if o.cleanupOk k then { fs with files := removeFile fs.files k }
    else { fs with files := setFile fs.files k n }

/-- One iteration of the sync_files loop on an entry (dest_rel, src size):
skip when the destination parent directory is missing; skip when the
destination exists with the same size; otherwise copy, counting a success
or recording an error with best-effort cleanup. -/
def syncStep (o : FsOracle) (st : SyncState) (e : RelPath × Nat) :
    SyncState :=
  if !(parentExists st.fs e.1) then { st with skipped := st.skipped + 1 }
  else if sameSize st.fs e.1 e.2 then { st with skipped := st.skipped + 1 }
  else if o.copyOk e.1 then
    { st with fs := { st.fs with files := setFile st.fs.files e.1 e.2 },
              copied := st.copied + 1 }
  else
    { st with fs := failCleanup o st.fs e.1,
              errors := st.errors ++ [e.1] }

/-- sync_files: fold the per-entry step over the source mapping, starting
from zero counts and no errors. -/
def sync_files (o : FsOracle) (source : List (RelPath × Nat))
    (fs : DeviceFS) : SyncState :=
  source.foldl (syncStep o) ⟨fs, 0, 0, []⟩

/-! ### remove_orphans (lines 219-260) -/

structure RemoveState where
  fs : DeviceFS
  removed : Nat
  errors : List RelPath
deriving DecidableEq

/-- One iteration of the remove_orphans loop: entries whose key is in the
source names are left alone; otherwise the unlink is attempted, counting a
removal or recording an error. -/
def removeStep (o : FsOracle) (source : List (RelPath × Nat))
    (st : RemoveState) (e : RelPath × Nat) : RemoveState :=
  if memKey source e.1 then st
  else if o.unlinkOk e.1 then
    { st with fs := { st.fs with files := removeFile st.fs.files e.1 },
              removed := st.removed + 1 }
  else { st with errors := st.errors ++ [e.1] }

/-- remove_orphans: fold the per-entry step over the device listing taken
before the sync. -/
def remove_orphans (o : FsOracle) (source device_mp3s : List (RelPath × Nat))
    (fs : DeviceFS) : RemoveState :=
  device_mp3s.foldl (removeStep o source) ⟨fs, 0, []⟩

/-- Applying the plan as main does: sync_files, then remove_orphans driven
by the device listing taken before the sync. -/
def applySync (o : FsOracle) (source : List (RelPath × Nat))
    (fs : DeviceFS) : DeviceFS :=
  (remove_orphans o source (deviceListing fs) (sync_files o source fs).fs).fs

/-! ### main (lines 263-434): control flow, exit codes, prompt -/

/-- Result of a run of main: the process exit code, the device filesystem
afterwards (none when no device was found), whether the confirmation
prompt was reached, whether the free-space warning fired, and the summary
counts. -/
structure MainResult where
  exitCode : Nat
  fsAfter : Option DeviceFS
  prompted : Bool
  warned : Bool
  copied : Nat
  skipped : Nat
  removed : Nat
  errors : List RelPath
deriving DecidableEq

/-- response.strip().lower() == the affirmative answer. -/
def pyAffirm (response : String) : Bool :=
  lowerStr (pyStrip response) == "y"

/-- Sum of the source byte sizes over the copy and update lists. -/
def spaceNeeded (source : List (RelPath × Nat)) (p : SyncPlan) : Nat :=
  ((p.toCopy ++ p.toUpdate).map fun k => (lookupSize source k).getD 0).sum

/-- main's nothing-to-do test on the plan. -/
def planEmpty (p : SyncPlan) : Bool :=
  p.toCopy.isEmpty && p.toUpdate.isEmpty && p.toDelete.isEmpty

/-- main: abort with exit code 1 when no device is found; exit 0 when
there is nothing to scan or the plan is trivial; otherwise warn when the
needed space exceeds the free space, prompt, exit 0 leaving the filesystem
untouched unless the answer is affirmative, and otherwise run sync_files
(when there is something to copy or update) and remove_orphans (when
there are orphans) and exit 0 whatever the per-file errors were. -/
def mainRun (device : Option DeviceFS) (freeSpace : Nat)
    (source : List (RelPath × Nat)) (response : String) (o : FsOracle) :
    MainResult :=
  match device with
  | none => ⟨1, none, false, false, 0, 0, 0, []⟩
  | some fs =>
    let device_mp3s := deviceListing fs
    if source.isEmpty && device_mp3s.isEmpty then
      ⟨0, some fs, false, false, 0, 0, 0, []⟩
    else
      let plan := planOf source device_mp3s
      if planEmpty plan then ⟨0, some fs, false, false, 0, 0, 0, []⟩
      else
        let needsWarn := decide (spaceNeeded source plan > freeSpace)
        if !(pyAffirm response) then
          ⟨0, some fs, true, needsWarn, 0, 0, 0, []⟩
        else
          let st :=
            if plan.toCopy.isEmpty && plan.toUpdate.isEmpty then
              (⟨fs, 0, 0, []⟩ : SyncState)
            else sync_files o source fs
          let rst :=
            if plan.toDelete.isEmpty then (⟨st.fs, 0, []⟩ : RemoveState)
            else remove_orphans o source device_mp3s st.fs
          ⟨0, some rst.fs, true, needsWarn, st.copied, st.skipped,
            rst.removed, st.errors ++ rst.errors⟩

/-! ### find_y1_device (lines 41-80) -/

/-- A candidate mount point: whether it is a directory, and the set of
relative paths that exist beneath it. -/
structure MountPoint where
  isDir : Bool
  paths : List String
deriving DecidableEq

/-- A per-user directory under /media: whether it is a directory, whether
listing it succeeds (false models a PermissionError from iterdir), and its
mount points. -/
structure UserDir where
  isDir : Bool
  readable : Bool
  mounts : List MountPoint
deriving DecidableEq

/-- The /media root: whether it exists, whether listing it succeeds, and
its per-user directories. -/
structure MediaRoot where
  present : Bool
  readable : Bool
  users : List UserDir
deriving DecidableEq

/-- The nested vendor marker directory checked first. -/
def y1Marker : String := "Android/data/com.innioasis.y1"

/-- The three known wallpaper filenames checked directly under the mount
point when a Themes directory exists. -/
def y1ThemeFiles : List String :=
  ["globalWallpaper.jpg", "UsbBackground.jpg", "desktopWallpaper.jpg"]

def hasPath (mp : MountPoint) (p : String) : Bool := mp.paths.contains p

/-- The acceptance test of the inner loop: the vendor marker exists, or a
Themes directory exists and at least one wallpaper file exists directly
under the mount point. -/
def mountAccepted (mp : MountPoint) : Bool :=
  hasPath mp y1Marker ||
    (hasPath mp "Themes" && y1ThemeFiles.any (hasPath mp))

/-- The inner loop body: non-directories are skipped, an accepted mount is
returned. -/
def scanMount (mp : MountPoint) : Option MountPoint :=
  if mp.isDir && mountAccepted mp then some mp else none

/-- The per-user scan: skip non-directories; a PermissionError from
listing the user directory is caught and the user is skipped; otherwise
return the first accepted mount point. -/
def scanUser (u : UserDir) : Option MountPoint :=
  if !u.isDir then none
  else if !u.readable then none
  else u.mounts.findSome? scanMount

/-- find_y1_device: none when /media does not exist; a PermissionError
from listing /media itself is NOT caught and propagates (modelled as the
error case); otherwise the first accepted mount point over all users. -/
def find_y1_device (m : MediaRoot) : Except Unit (Option MountPoint) :=
  if !m.present then Except.ok none
  else if !m.readable then Except.error ()
  else Except.ok (m.users.findSome? scanUser)

/-! Quick sanity checks of the embedding on concrete values. -/

example : isMp3Name "song.MP3" = true := by decide
example : isMp3Name "song.mp3" = true := by decide
example : isMp3Name "song.ogg" = false := by decide
example : isMp3Name ".mp3" = false := by decide
example : isMp3Name "song." = false := by decide
example : isMp3Name "song" = false := by decide
example : pyAffirm " Y " = true := by decide
example : pyAffirm "n" = false := by decide
example : pyAffirm "" = false := by decide
example :
    planOf [(RelPath.root "a.mp3", 5)] [(RelPath.root "a.mp3", 5)] =
      ⟨[], [], [RelPath.root "a.mp3"], []⟩ := by decide
example :
    planOf [(RelPath.root "a.mp3", 5), (RelPath.audiobooks "b.mp3", 3)]
        [(RelPath.root "a.mp3", 4), (RelPath.root "c.mp3", 9)] =
      ⟨[RelPath.audiobooks "b.mp3"], [RelPath.root "a.mp3"], [],
        [RelPath.root "c.mp3"]⟩ := by decide

/-! ### Helper lemmas about the association-list filesystem -/

theorem mem_keysOf {l : List (RelPath × Nat)} {k : RelPath} :
    k ∈ keysOf l ↔ ∃ s, (k, s) ∈ l := by
  constructor
  · intro h
    rcases List.mem_map.mp h with ⟨⟨k', s⟩, hm, he⟩
    exact ⟨s, by simpa [← he] using hm⟩
  · rintro ⟨s, h⟩
    exact List.mem_map.mpr ⟨(k, s), h, rfl⟩

theorem memKey_eq_true_iff {l : List (RelPath × Nat)} {k : RelPath} :
    memKey l k = true ↔ k ∈ keysOf l := by
  simp only [memKey, List.any_eq_true, decide_eq_true_eq, mem_keysOf]
  constructor
  · rintro ⟨⟨k', s⟩, hm, rfl⟩
    exact ⟨s, hm⟩
  · rintro ⟨s, hm⟩
    exact ⟨(k, s), hm, rfl⟩

theorem memKey_eq_false_iff {l : List (RelPath × Nat)} {k : RelPath} :
    memKey l k = false ↔ k ∉ keysOf l := by
  rw [← memKey_eq_true_iff]
  cases memKey l k <;> simp

theorem lookupSize_nil {k : RelPath} : lookupSize [] k = none := rfl

theorem lookupSize_cons {e : RelPath × Nat} {l : List (RelPath × Nat)}
    {k : RelPath} :
    lookupSize (e :: l) k = if e.1 = k then some e.2 else lookupSize l k := by
  by_cases h : e.1 = k
  · simp [lookupSize, List.find?_cons_of_pos, h]
  · simp [lookupSize, List.find?_cons_of_neg, h]

theorem lookupSize_eq_none_iff {l : List (RelPath × Nat)} {k : RelPath} :
    lookupSize l k = none ↔ k ∉ keysOf l := by
  simp only [lookupSize, Option.map_eq_none', List.find?_eq_none,
    decide_eq_true_eq, mem_keysOf, not_exists]
  constructor
  · intro h s hs
    exact h (k, s) hs rfl
  · intro h e he hek
    have hm : (e.1, e.2) ∈ l := by simpa using he
    rw [hek] at hm
    exact h e.2 hm

theorem lookupSize_isSome_iff {l : List (RelPath × Nat)} {k : RelPath} :
    (lookupSize l k).isSome = true ↔ k ∈ keysOf l := by
  rw [← Decidable.not_not (p := k ∈ keysOf l), ← lookupSize_eq_none_iff]
  cases lookupSize l k <;> simp

theorem mem_of_lookupSize_eq_some {l : List (RelPath × Nat)} {k : RelPath}
    {s : Nat} (h : lookupSize l k = some s) : (k, s) ∈ l := by
  simp only [lookupSize, Option.map_eq_some'] at h
  rcases h with ⟨e, hfind, hsnd⟩
  have hmem := List.mem_of_find?_eq_some hfind
  have hkey : e.1 = k := by simpa using List.find?_some hfind
  have hm : (e.1, e.2) ∈ l := by simpa using hmem
  rwa [hkey, hsnd] at hm

theorem keyUnique {l : List (RelPath × Nat)} {k : RelPath} {a b : Nat}
    (hnd : (keysOf l).Nodup) (ha : (k, a) ∈ l) (hb : (k, b) ∈ l) : a = b := by
  induction l with
  | nil => simp at ha
  | cons e l ih =>
    have hnd' : (keysOf l).Nodup :=
      (List.nodup_cons.mp (by simpa [keysOf] using hnd)).2
    have hhead : e.1 ∉ keysOf l :=
      (List.nodup_cons.mp (by simpa [keysOf] using hnd)).1
    rcases List.mem_cons.mp ha with ha' | ha' <;>
      rcases List.mem_cons.mp hb with hb' | hb'
    · exact congrArg Prod.snd (ha'.trans hb'.symm)
    · refine absurd (mem_keysOf.mpr ⟨b, hb'⟩) ?_
      have : e.1 = k := by rw [← ha']
      rwa [this] at hhead
    · refine absurd (mem_keysOf.mpr ⟨a, ha'⟩) ?_
      have : e.1 = k := by rw [← hb']
      rwa [this] at hhead
    · exact ih hnd' ha' hb'

theorem lookupSize_of_mem_nodup {l : List (RelPath × Nat)} {k : RelPath}
    {s : Nat} (hnd : (keysOf l).Nodup) (h : (k, s) ∈ l) :
    lookupSize l k = some s := by
  have hsome : (lookupSize l k).isSome = true :=
    lookupSize_isSome_iff.mpr (mem_keysOf.mpr ⟨s, h⟩)
  rcases Option.isSome_iff_exists.mp hsome with ⟨s', hs'⟩
  rw [hs', keyUnique hnd (mem_of_lookupSize_eq_some hs') h]

theorem setFile_nil {k : RelPath} {s : Nat} : setFile [] k s = [(k, s)] := rfl

theorem setFile_cons {e : RelPath × Nat} {l : List (RelPath × Nat)}
    {k : RelPath} {s : Nat} :
    setFile (e :: l) k s =
      if e.1 = k then (k, s) :: setFile l k s else e :: setFile l k s := rfl

theorem removeFile_cons {e : RelPath × Nat} {l : List (RelPath × Nat)}
    {k : RelPath} :
    removeFile (e :: l) k =
      if e.1 = k then removeFile l k else e :: removeFile l k := by
  by_cases h : e.1 = k
  · simp [removeFile, List.filter_cons, h]
  · simp [removeFile, List.filter_cons, h]

theorem lookupSize_setFile_self {l : List (RelPath × Nat)} {k : RelPath}
    {s : Nat} : lookupSize (setFile l k s) k = some s := by
  induction l with
  | nil => rw [setFile_nil, lookupSize_cons]; simp
  | cons e l ih =>
    rw [setFile_cons]
    by_cases h : e.1 = k
    · rw [if_pos h, lookupSize_cons]; simp
    · rw [if_neg h, lookupSize_cons, if_neg h]; exact ih

theorem lookupSize_setFile_ne {l : List (RelPath × Nat)} {k k' : RelPath}
    {s : Nat} (h : k' ≠ k) :
    lookupSize (setFile l k s) k' = lookupSize l k' := by
  induction l with
  | nil =>
    rw [setFile_nil, lookupSize_cons,
      if_neg (show ¬((k, s).1 = k') from fun hx => h hx.symm), lookupSize_nil]
  | cons e l ih =>
    rw [setFile_cons]
    by_cases he : e.1 = k
    · rw [if_pos he, lookupSize_cons,
        if_neg (show ¬((k, s).1 = k') from fun hx => h hx.symm), ih,
        lookupSize_cons, if_neg (show ¬(e.1 = k') from
          fun hx => h (he.symm.trans hx).symm)]
    · rw [if_neg he, lookupSize_cons, lookupSize_cons]
      by_cases hek : e.1 = k'
      · rw [if_pos hek, if_pos hek]
      · rw [if_neg hek, if_neg hek]; exact ih

theorem lookupSize_removeFile_self {l : List (RelPath × Nat)} {k : RelPath} :
    lookupSize (removeFile l k) k = none := by
  induction l with
  | nil => rfl
  | cons e l ih =>
    rw [removeFile_cons]
    by_cases h : e.1 = k
    · rw [if_pos h]; exact ih
    · rw [if_neg h, lookupSize_cons, if_neg h]; exact ih

theorem lookupSize_removeFile_ne {l : List (RelPath × Nat)} {k k' : RelPath}
    (h : k' ≠ k) : lookupSize (removeFile l k) k' = lookupSize l k' := by
  induction l with
  | nil => rfl
  | cons e l ih =>
    rw [removeFile_cons]
    by_cases he : e.1 = k
    · rw [if_pos he, ih, lookupSize_cons, if_neg (show ¬(e.1 = k') from
        fun hx => h (he.symm.trans hx).symm)]
    · rw [if_neg he, lookupSize_cons, lookupSize_cons]
      by_cases hek : e.1 = k'
      · rw [if_pos hek, if_pos hek]
      · rw [if_neg hek, if_neg hek, ih]

theorem keysOf_cons {e : RelPath × Nat} {l : List (RelPath × Nat)} :
    keysOf (e :: l) = e.1 :: keysOf l := rfl

/-! ### Branch and fold lemmas for sync_files -/

theorem syncStep_dir (o : FsOracle) (st : SyncState) (e : RelPath × Nat) :
    (syncStep o st e).fs.audiobooksDirExists = st.fs.audiobooksDirExists := by
  unfold syncStep failCleanup
  by_cases h1 : parentExists st.fs e.1 <;>
    by_cases h2 : sameSize st.fs e.1 e.2 <;>
      by_cases h3 : o.copyOk e.1 <;>
        cases h4 : o.afterFail e.1 <;>
          by_cases h5 : o.cleanupOk e.1 <;>
            simp [h1, h2, h3, h4, h5]

theorem syncFold_dir (o : FsOracle) (source : List (RelPath × Nat)) :
    ∀ st : SyncState,
      (List.foldl (syncStep o) st source).fs.audiobooksDirExists =
        st.fs.audiobooksDirExists := by
  induction source with
  | nil => intro st; rfl
  | cons e rest ih =>
    intro st
    rw [List.foldl_cons, ih, syncStep_dir]

theorem parentExists_congr {fs fs' : DeviceFS}
    (h : fs.audiobooksDirExists = fs'.audiobooksDirExists) (k : RelPath) :
    parentExists fs k = parentExists fs' k := by
  cases k <;> simp [parentExists, h]

theorem syncStep_lookup_self (o : FsOracle) (st : SyncState)
    (e : RelPath × Nat) (hp : parentExists st.fs e.1 = true)
    (hc : o.copyOk e.1 = true) :
    lookupSize (syncStep o st e).fs.files e.1 = some e.2 := by
  unfold syncStep
  rw [hp]
  by_cases h2 : sameSize st.fs e.1 e.2
  · simp only [h2, Bool.not_true, Bool.false_eq_true, if_false, if_true]
    unfold sameSize at h2
    rcases hl : lookupSize st.fs.files e.1 with _ | d
    · rw [hl] at h2; simp at h2
    · rw [hl] at h2
      simp only [decide_eq_true_eq] at h2
      rw [h2]
  · simp only [h2, Bool.not_true, Bool.false_eq_true, if_false, hc, if_true,
      Bool.not_false]
    exact lookupSize_setFile_self

theorem syncStep_lookup_other (o : FsOracle) (st : SyncState)
    (e : RelPath × Nat) {k : RelPath} (h : k ≠ e.1) :
    lookupSize (syncStep o st e).fs.files k = lookupSize st.fs.files k := by
  unfold syncStep failCleanup
  by_cases h1 : parentExists st.fs e.1 <;>
    by_cases h2 : sameSize st.fs e.1 e.2 <;>
      by_cases h3 : o.copyOk e.1 <;>
        cases h4 : o.afterFail e.1 <;>
          by_cases h5 : o.cleanupOk e.1 <;>
            simp [h1, h2, h3, h4, h5, lookupSize_setFile_ne h,
              lookupSize_removeFile_ne h]

theorem syncFold_lookup (o : FsOracle) (source : List (RelPath × Nat)) :
    ∀ st : SyncState, (keysOf source).Nodup →
      (∀ e ∈ source, parentExists st.fs e.1 = true) →
      (∀ e ∈ source, o.copyOk e.1 = true) →
      (∀ k s, lookupSize source k = some s →
          lookupSize (List.foldl (syncStep o) st source).fs.files k = some s) ∧
      (∀ k, lookupSize source k = none →
          lookupSize (List.foldl (syncStep o) st source).fs.files k =
            lookupSize st.fs.files k) := by
  induction source with
  | nil =>
    intro st _ _ _
    exact ⟨fun k s h => by rw [lookupSize_nil] at h; exact absurd h (by simp),
      fun k _ => rfl⟩
  | cons e rest ih =>
    intro st hnd hp hc
    have hnd' : (keysOf rest).Nodup :=
      (List.nodup_cons.mp (by simpa [keysOf] using hnd)).2
    have hhead : e.1 ∉ keysOf rest :=
      (List.nodup_cons.mp (by simpa [keysOf] using hnd)).1
    have hp' : ∀ e' ∈ rest, parentExists (syncStep o st e).fs e'.1 = true :=
      fun e' he' => by
        rw [parentExists_congr (syncStep_dir o st e) e'.1]
        exact hp e' (List.mem_cons_of_mem _ he')
    have hc' : ∀ e' ∈ rest, o.copyOk e'.1 = true :=
      fun e' he' => hc e' (List.mem_cons_of_mem _ he')
    have IH := ih (syncStep o st e) hnd' hp' hc'
    rw [List.foldl_cons]
    constructor
    · intro k s hks
      rw [lookupSize_cons] at hks
      by_cases hek : e.1 = k
      · rw [if_pos hek] at hks
        injection hks with hs
        subst hek
        subst hs
        have hrest : lookupSize rest e.1 = none :=
          lookupSize_eq_none_iff.mpr hhead
        rw [IH.2 e.1 hrest]
        exact syncStep_lookup_self o st e
          (hp e (List.mem_cons_self e rest)) (hc e (List.mem_cons_self e rest))
      · rw [if_neg hek] at hks
        exact IH.1 k s hks
    · intro k hkn
      rw [lookupSize_cons] at hkn
      by_cases hek : e.1 = k
      · rw [if_pos hek] at hkn; exact absurd hkn (by simp)
      · rw [if_neg hek] at hkn
        rw [IH.2 k hkn]
        exact syncStep_lookup_other o st e (fun hx => hek hx.symm)

/-! ### Branch and fold lemmas for remove_orphans -/

theorem removeStep_dir (o : FsOracle) (source : List (RelPath × Nat))
    (st : RemoveState) (e : RelPath × Nat) :
    (removeStep o source st e).fs.audiobooksDirExists =
      st.fs.audiobooksDirExists := by
  unfold removeStep
  by_cases h1 : memKey source e.1 <;>
    by_cases h2 : o.unlinkOk e.1 <;> simp [h1, h2]

theorem removeFold_dir (o : FsOracle) (source listing : List (RelPath × Nat)) :
    ∀ st : RemoveState,
      (List.foldl (removeStep o source) st listing).fs.audiobooksDirExists =
        st.fs.audiobooksDirExists := by
  induction listing with
  | nil => intro st; rfl
  | cons e rest ih =>
    intro st
    rw [List.foldl_cons, ih, removeStep_dir]

theorem removeStep_not_orphan {o : FsOracle} {source : List (RelPath × Nat)}
    {st : RemoveState} {e : RelPath × Nat} (h : memKey source e.1 = true) :
    removeStep o source st e = st := by
  simp [removeStep, h]

theorem removeStep_orphan_files {o : FsOracle} {source : List (RelPath × Nat)}
    {st : RemoveState} {e : RelPath × Nat} (h : memKey source e.1 = false)
    (hu : o.unlinkOk e.1 = true) :
    (removeStep o source st e).fs.files = removeFile st.fs.files e.1 := by
  simp [removeStep, h, hu]

theorem removeStep_lookup_other (o : FsOracle) (source : List (RelPath × Nat))
    (st : RemoveState) (e : RelPath × Nat) {k : RelPath} (h : k ≠ e.1) :
    lookupSize (removeStep o source st e).fs.files k =
      lookupSize st.fs.files k := by
  unfold removeStep
  by_cases h1 : memKey source e.1 <;>
    by_cases h2 : o.unlinkOk e.1 <;>
      simp [h1, h2, lookupSize_removeFile_ne h]

theorem removeFold_lookup (o : FsOracle) (source : List (RelPath × Nat))
    (listing : List (RelPath × Nat)) (hu : ∀ k, o.unlinkOk k = true) :
    ∀ (st : RemoveState) (k : RelPath),
      lookupSize (List.foldl (removeStep o source) st listing).fs.files k =
        if k ∈ keysOf listing ∧ memKey source k = false then none
        else lookupSize st.fs.files k := by
  induction listing with
  | nil =>
    intro st k
    rw [if_neg (by rintro ⟨h, _⟩; simp [keysOf] at h)]
    rfl
  | cons e rest ih =>
    intro st k
    rw [List.foldl_cons, ih (removeStep o source st e) k]
    by_cases hm : memKey source e.1 = true
    · rw [removeStep_not_orphan hm]
      by_cases hk : k ∈ keysOf rest ∧ memKey source k = false
      · rw [if_pos hk,
          if_pos ⟨keysOf_cons ▸ List.mem_cons_of_mem _ hk.1, hk.2⟩]
      · rw [if_neg hk]
        by_cases hk2 : k ∈ keysOf (e :: rest) ∧ memKey source k = false
        · rcases hk2 with ⟨hin, hns⟩
          rw [keysOf_cons, List.mem_cons] at hin
          rcases hin with rfl | hin
          · rw [hm] at hns; exact absurd hns (by simp)
          · exact absurd ⟨hin, hns⟩ hk
        · rw [if_neg hk2]
    · have hmf : memKey source e.1 = false := by
        cases hx : memKey source e.1
        · rfl
        · exact absurd hx hm
      by_cases hk : k ∈ keysOf rest ∧ memKey source k = false
      · rw [if_pos hk,
          if_pos ⟨keysOf_cons ▸ List.mem_cons_of_mem _ hk.1, hk.2⟩]
      · rw [if_neg hk]
        by_cases hke : k = e.1
        · subst hke
          rw [if_pos ⟨keysOf_cons ▸ List.mem_cons_self _ _, hmf⟩,
            removeStep_orphan_files hmf (hu e.1), lookupSize_removeFile_self]
        · rw [removeStep_lookup_other o source st e hke]
          by_cases hk2 : k ∈ keysOf (e :: rest) ∧ memKey source k = false
          · rcases hk2 with ⟨hin, hns⟩
            rw [keysOf_cons, List.mem_cons] at hin
            rcases hin with rfl | hin
            · exact absurd rfl hke
            · exact absurd ⟨hin, hns⟩ hk
          · rw [if_neg hk2]

theorem removeFold_frame (o : FsOracle) (source listing : List (RelPath × Nat)) :
    ∀ (st : RemoveState) (k : RelPath),
      (memKey source k = true ∨ k ∉ keysOf listing) →
      lookupSize (List.foldl (removeStep o source) st listing).fs.files k =
        lookupSize st.fs.files k := by
  induction listing with
  | nil => intro st k _; rfl
  | cons e rest ih =>
    intro st k hk
    have hk' : memKey source k = true ∨ k ∉ keysOf rest := by
      rcases hk with h | h
      · exact Or.inl h
      · exact Or.inr fun hm => h (keysOf_cons ▸ List.mem_cons_of_mem _ hm)
    rw [List.foldl_cons, ih _ k hk']
    by_cases hm : memKey source e.1 = true
    · rw [removeStep_not_orphan hm]
    · have hke : k ≠ e.1 := by
        rintro rfl
        rcases hk with h | h
        · exact hm h
        · exact h (keysOf_cons ▸ List.mem_cons_self _ _)
      exact removeStep_lookup_other o source st e hke

/-! ### Membership characterizations of the plan lists -/

theorem mem_toCopy {source device : List (RelPath × Nat)} {k : RelPath} :
    k ∈ (planOf source device).toCopy ↔
      ∃ s, (k, s) ∈ source ∧ memKey device k = false := by
  simp only [planOf, List.mem_map, List.mem_filter]
  constructor
  · rintro ⟨⟨k', s⟩, ⟨hm, hc⟩, rfl⟩
    exact ⟨s, hm, by simpa using hc⟩
  · rintro ⟨s, hm, hc⟩
    exact ⟨(k, s), ⟨hm, by simpa using hc⟩, rfl⟩

theorem mem_toUpdate {source device : List (RelPath × Nat)} {k : RelPath} :
    k ∈ (planOf source device).toUpdate ↔
      ∃ s, (k, s) ∈ source ∧ memKey device k = true ∧
        sizeDiffers device (k, s) = true := by
  simp only [planOf, List.mem_map, List.mem_filter]
  constructor
  · rintro ⟨⟨k', s⟩, ⟨hm, hc⟩, rfl⟩
    rcases Bool.and_eq_true_iff.mp hc with ⟨h1, h2⟩
    exact ⟨s, hm, h1, h2⟩
  · rintro ⟨s, hm, h1, h2⟩
    exact ⟨(k, s), ⟨hm, Bool.and_eq_true_iff.mpr ⟨h1, h2⟩⟩, rfl⟩

theorem mem_toSkip {source device : List (RelPath × Nat)} {k : RelPath} :
    k ∈ (planOf source device).toSkip ↔
      ∃ s, (k, s) ∈ source ∧ memKey device k = true ∧
        sizeDiffers device (k, s) = false := by
  simp only [planOf, List.mem_map, List.mem_filter]
  constructor
  · rintro ⟨⟨k', s⟩, ⟨hm, hc⟩, rfl⟩
    rcases Bool.and_eq_true_iff.mp hc with ⟨h1, h2⟩
    exact ⟨s, hm, h1, by simpa using h2⟩
  · rintro ⟨s, hm, h1, h2⟩
    exact ⟨(k, s), ⟨hm, Bool.and_eq_true_iff.mpr ⟨h1, by simpa using h2⟩⟩, rfl⟩

theorem mem_toDelete {source device : List (RelPath × Nat)} {k : RelPath} :
    k ∈ (planOf source device).toDelete ↔
      k ∈ keysOf device ∧ memKey source k = false := by
  simp only [planOf, List.mem_filter]
  constructor
  · rintro ⟨hm, hc⟩
    exact ⟨hm, by simpa using hc⟩
  · rintro ⟨hm, hc⟩
    exact ⟨hm, by simpa using hc⟩

/-- C1: for every source mapping and device mapping, the plan partitions
the source keys: toCopy, toUpdate and toSkip are pairwise disjoint, their
union is exactly the set of source keys, and toDelete is exactly the set
of device keys that are not source keys. -/
theorem plan_partitions (source device : List (RelPath × Nat))
    (hnd : (keysOf source).Nodup) :
    (∀ k, (k ∈ (planOf source device).toCopy ∨
        k ∈ (planOf source device).toUpdate ∨
        k ∈ (planOf source device).toSkip) ↔ k ∈ keysOf source) ∧
    (∀ k, k ∈ (planOf source device).toCopy →
        k ∉ (planOf source device).toUpdate) ∧
    (∀ k, k ∈ (planOf source device).toCopy →
        k ∉ (planOf source device).toSkip) ∧
    (∀ k, k ∈ (planOf source device).toUpdate →
        k ∉ (planOf source device).toSkip) ∧
    (∀ k, k ∈ (planOf source device).toDelete ↔
        (k ∈ keysOf device ∧ k ∉ keysOf source)) := by
  refine ⟨?_, ?_, ?_, ?_, ?_⟩
  · intro k
    constructor
    · rintro (h | h | h)
      · rcases mem_toCopy.mp h with ⟨s, hm, _⟩
        exact mem_keysOf.mpr ⟨s, hm⟩
      · rcases mem_toUpdate.mp h with ⟨s, hm, _, _⟩
        exact mem_keysOf.mpr ⟨s, hm⟩
      · rcases mem_toSkip.mp h with ⟨s, hm, _, _⟩
        exact mem_keysOf.mpr ⟨s, hm⟩
    · intro h
      rcases mem_keysOf.mp h with ⟨s, hs⟩
      cases hm : memKey device k
      · exact Or.inl (mem_toCopy.mpr ⟨s, hs, hm⟩)
      · cases hd : sizeDiffers device (k, s)
        · exact Or.inr (Or.inr (mem_toSkip.mpr ⟨s, hs, hm, hd⟩))
        · exact Or.inr (Or.inl (mem_toUpdate.mpr ⟨s, hs, hm, hd⟩))
  · intro k hc hu
    rcases mem_toCopy.mp hc with ⟨s, _, hmf⟩
    rcases mem_toUpdate.mp hu with ⟨s', _, hmt, _⟩
    rw [hmf] at hmt
    exact Bool.noConfusion hmt
  · intro k hc hs
    rcases mem_toCopy.mp hc with ⟨s, _, hmf⟩
    rcases mem_toSkip.mp hs with ⟨s', _, hmt, _⟩
    rw [hmf] at hmt
    exact Bool.noConfusion hmt
  · intro k hu hs
    rcases mem_toUpdate.mp hu with ⟨s, hms, _, hdt⟩
    rcases mem_toSkip.mp hs with ⟨s', hms', _, hdf⟩
    have : s = s' := keyUnique hnd hms hms'
    rw [this, hdf] at hdt
    exact Bool.noConfusion hdt
  · intro k
    rw [mem_toDelete, memKey_eq_false_iff]

/-- C4: a key present in source and device with equal sizes is classified
skip and never update; present in both with differing sizes it is
classified update; present in source only it is classified copy. -/
theorem plan_classification (source device : List (RelPath × Nat))
    (hnd : (keysOf source).Nodup) (k : RelPath) (s d : Nat) :
    (lookupSize source k = some s → lookupSize device k = some s →
      k ∈ (planOf source device).toSkip ∧
        k ∉ (planOf source device).toUpdate) ∧
    (lookupSize source k = some s → lookupSize device k = some d → d ≠ s →
      k ∈ (planOf source device).toUpdate) ∧
    (lookupSize source k = some s → memKey device k = false →
      k ∈ (planOf source device).toCopy) := by
  refine ⟨?_, ?_, ?_⟩
  · intro hsrc hdev
    have hm : memKey device k = true :=
      memKey_eq_true_iff.mpr (lookupSize_isSome_iff.mp (by rw [hdev]; rfl))
    have hdiff : sizeDiffers device (k, s) = false := by
      simp [sizeDiffers, hdev]
    constructor
    · exact mem_toSkip.mpr ⟨s, mem_of_lookupSize_eq_some hsrc, hm, hdiff⟩
    · intro hu
      rcases mem_toUpdate.mp hu with ⟨s', hms', _, hdt⟩
      have : s = s' := keyUnique hnd (mem_of_lookupSize_eq_some hsrc) hms'
      rw [← this, hdiff] at hdt
      exact Bool.noConfusion hdt
  · intro hsrc hdev hds
    have hm : memKey device k = true :=
      memKey_eq_true_iff.mpr (lookupSize_isSome_iff.mp (by rw [hdev]; rfl))
    have hdiff : sizeDiffers device (k, s) = true := by
      simp [sizeDiffers, hdev, hds]
    exact mem_toUpdate.mpr ⟨s, mem_of_lookupSize_eq_some hsrc, hm, hdiff⟩
  · intro hsrc hmf
    exact mem_toCopy.mpr ⟨s, mem_of_lookupSize_eq_some hsrc, hmf⟩

/-- C1 witness: the partition theorem applied to a concrete source and
device mapping. -/
theorem plan_partitions_w :
    (keysOf [(RelPath.root "a.mp3", 5), (RelPath.audiobooks "b.mp3", 3)]).Nodup ∧
    (∀ k, (k ∈ (planOf [(RelPath.root "a.mp3", 5), (RelPath.audiobooks "b.mp3", 3)]
          [(RelPath.root "a.mp3", 4), (RelPath.root "c.mp3", 9)]).toCopy ∨
        k ∈ (planOf [(RelPath.root "a.mp3", 5), (RelPath.audiobooks "b.mp3", 3)]
          [(RelPath.root "a.mp3", 4), (RelPath.root "c.mp3", 9)]).toUpdate ∨
        k ∈ (planOf [(RelPath.root "a.mp3", 5), (RelPath.audiobooks "b.mp3", 3)]
          [(RelPath.root "a.mp3", 4), (RelPath.root "c.mp3", 9)]).toSkip) ↔
        k ∈ keysOf [(RelPath.root "a.mp3", 5), (RelPath.audiobooks "b.mp3", 3)]) :=
  ⟨by decide,
    (plan_partitions [(RelPath.root "a.mp3", 5), (RelPath.audiobooks "b.mp3", 3)]
      [(RelPath.root "a.mp3", 4), (RelPath.root "c.mp3", 9)] (by decide)).1⟩

/-- C4 witness: the classification theorem applied at concrete inputs for
each of its three branches. -/
theorem plan_classification_w :
    (lookupSize [(RelPath.root "a.mp3", 5)] (RelPath.root "a.mp3") = some 5 ∧
      (RelPath.root "a.mp3") ∈
        (planOf [(RelPath.root "a.mp3", 5)] [(RelPath.root "a.mp3", 5)]).toSkip ∧
      (RelPath.root "a.mp3") ∉
        (planOf [(RelPath.root "a.mp3", 5)] [(RelPath.root "a.mp3", 5)]).toUpdate) ∧
    ((RelPath.root "a.mp3") ∈
      (planOf [(RelPath.root "a.mp3", 5)] [(RelPath.root "a.mp3", 7)]).toUpdate) ∧
    ((RelPath.root "a.mp3") ∈
      (planOf [(RelPath.root "a.mp3", 5)] ([] : List (RelPath × Nat))).toCopy) :=
  ⟨⟨by decide,
    (plan_classification [(RelPath.root "a.mp3", 5)] [(RelPath.root "a.mp3", 5)]
      (by decide) (RelPath.root "a.mp3") 5 5).1 (by decide) (by decide)⟩,
    (plan_classification [(RelPath.root "a.mp3", 5)] [(RelPath.root "a.mp3", 7)]
      (by decide) (RelPath.root "a.mp3") 5 7).2.1 (by decide) (by decide) (by decide),
    (plan_classification [(RelPath.root "a.mp3", 5)] []
      (by decide) (RelPath.root "a.mp3") 5 0).2.2 (by decide) (by decide)⟩

/-! ### Counting invariant of sync_files -/

theorem syncFold_count (o : FsOracle) (source : List (RelPath × Nat)) :
    ∀ st : SyncState,
      (List.foldl (syncStep o) st source).copied +
        (List.foldl (syncStep o) st source).skipped +
        (List.foldl (syncStep o) st source).errors.length =
      st.copied + st.skipped + st.errors.length + source.length := by
  induction source with
  | nil => intro st; rfl
  | cons e rest ih =>
    intro st
    rw [List.foldl_cons, ih]
    have hstep : (syncStep o st e).copied + (syncStep o st e).skipped +
        (syncStep o st e).errors.length =
        st.copied + st.skipped + st.errors.length + 1 := by
      unfold syncStep failCleanup
      by_cases h1 : parentExists st.fs e.1 <;>
        by_cases h2 : sameSize st.fs e.1 e.2 <;>
          by_cases h3 : o.copyOk e.1 <;>
            simp [h1, h2, h3] <;> omega
    rw [hstep]
    simp [List.length_cons]
    omega

/-- C9: sync_files classifies every source entry into exactly one outcome,
so copied + skipped + number of errors equals the number of source
entries. -/
theorem sync_files_counts (o : FsOracle) (source : List (RelPath × Nat))
    (fs : DeviceFS) :
    (sync_files o source fs).copied + (sync_files o source fs).skipped +
      (sync_files o source fs).errors.length = source.length := by
  have h := syncFold_count o source ⟨fs, 0, 0, []⟩
  simpa [sync_files] using h

/-- C10: remove_orphans never unlinks a device file whose key is in the
source mapping, and files outside the device listing are untouched, so
only device-not-source keys can be unlinked. -/
theorem remove_orphans_frame (o : FsOracle)
    (source device_mp3s : List (RelPath × Nat)) (fs : DeviceFS) :
    (∀ k, memKey source k = true →
      lookupSize (remove_orphans o source device_mp3s fs).fs.files k =
        lookupSize fs.files k) ∧
    (∀ k, k ∉ keysOf device_mp3s →
      lookupSize (remove_orphans o source device_mp3s fs).fs.files k =
        lookupSize fs.files k) := by
  constructor
  · intro k h
    exact removeFold_frame o source device_mp3s ⟨fs, 0, []⟩ k (Or.inl h)
  · intro k h
    exact removeFold_frame o source device_mp3s ⟨fs, 0, []⟩ k (Or.inr h)

/-- Oracle on which every filesystem operation succeeds. -/
def oAll : FsOracle :=
  ⟨fun _ => true, fun _ => none, fun _ => true, fun _ => true⟩

/-- C10 witness: the frame theorem applied to a concrete device state
whose listing shares a key with the source. -/
theorem remove_orphans_frame_w :
    memKey [(RelPath.root "a.mp3", 5)] (RelPath.root "a.mp3") = true ∧
    lookupSize (remove_orphans oAll [(RelPath.root "a.mp3", 5)]
        [(RelPath.root "a.mp3", 5), (RelPath.root "c.mp3", 9)]
        ⟨[(RelPath.root "a.mp3", 5), (RelPath.root "c.mp3", 9)], false⟩).fs.files
      (RelPath.root "a.mp3") =
      lookupSize [(RelPath.root "a.mp3", 5), (RelPath.root "c.mp3", 9)]
        (RelPath.root "a.mp3") :=
  ⟨by decide,
    (remove_orphans_frame oAll [(RelPath.root "a.mp3", 5)]
        [(RelPath.root "a.mp3", 5), (RelPath.root "c.mp3", 9)]
        ⟨[(RelPath.root "a.mp3", 5), (RelPath.root "c.mp3", 9)], false⟩).1
      (RelPath.root "a.mp3") (by decide)⟩

/-! ### Exit codes and the confirmation gate of main -/

/-- C3 counterexample: a run that reaches the confirmation prompt and is
declined still exits with code 0 (main calls sys.exit(0) on decline), so
the claim that declining yields a non-zero exit code is false. -/
theorem main_decline_exits_zero :
    (mainRun (some ⟨[], false⟩) 100 [(RelPath.root "a.mp3", 1)] "n"
      oAll).prompted = true ∧
    (mainRun (some ⟨[], false⟩) 100 [(RelPath.root "a.mp3", 1)] "n"
      oAll).exitCode = 0 := by
  constructor <;> rfl

/-- C3 amended: the process exits 0 whenever a device is found — whether
there is nothing to do, the sync completes regardless of per-file errors,
or the user declines the prompt — and exits with the non-zero code 1
exactly when no device is found. -/
theorem main_exit_codes (freeSpace : Nat) (source : List (RelPath × Nat))
    (response : String) (o : FsOracle) (fs : DeviceFS) :
    (mainRun none freeSpace source response o).exitCode = 1 ∧
    (mainRun (some fs) freeSpace source response o).exitCode = 0 := by
  refine ⟨rfl, ?_⟩
  unfold mainRun
  dsimp only
  by_cases h1 : (source.isEmpty && (deviceListing fs).isEmpty) = true
  · rw [if_pos h1]
  · rw [if_neg h1]
    by_cases h2 : planEmpty (planOf source (deviceListing fs)) = true
    · rw [if_pos h2]
    · rw [if_neg h2]
      by_cases h3 : (!pyAffirm response) = true
      · rw [if_pos h3]
      · rw [if_neg h3]

/-- C6: the confirmation prompt is a hard stop — any non-affirmative
answer leaves the device filesystem exactly as it was with nothing copied
or removed — and an insufficient-space condition only sets the warning:
whenever the plan is nonempty the prompt is still reached. -/
theorem main_confirmation_gate (fs : DeviceFS) (freeSpace : Nat)
    (source : List (RelPath × Nat)) (response : String) (o : FsOracle) :
    (pyAffirm response = false →
      (mainRun (some fs) freeSpace source response o).fsAfter = some fs ∧
      (mainRun (some fs) freeSpace source response o).copied = 0 ∧
      (mainRun (some fs) freeSpace source response o).removed = 0 ∧
      (mainRun (some fs) freeSpace source response o).errors = []) ∧
    (planEmpty (planOf source (deviceListing fs)) = false →
      spaceNeeded source (planOf source (deviceListing fs)) > freeSpace →
      (mainRun (some fs) freeSpace source response o).warned = true ∧
      (mainRun (some fs) freeSpace source response o).prompted = true) := by
  constructor
  · intro hdecl
    unfold mainRun
    dsimp only
    by_cases h1 : (source.isEmpty && (deviceListing fs).isEmpty) = true
    · rw [if_pos h1]; exact ⟨rfl, rfl, rfl, rfl⟩
    · rw [if_neg h1]
      by_cases h2 : planEmpty (planOf source (deviceListing fs)) = true
      · rw [if_pos h2]; exact ⟨rfl, rfl, rfl, rfl⟩
      · rw [if_neg h2, if_pos (by rw [hdecl]; rfl)]
        exact ⟨rfl, rfl, rfl, rfl⟩
  · intro hplan hspace
    have h1 : (source.isEmpty && (deviceListing fs).isEmpty) = false := by
      cases hs : source.isEmpty
      · rfl
      · cases hd : (deviceListing fs).isEmpty
        · simp
        · exfalso
          rw [List.isEmpty_iff] at hs hd
          rw [hs, hd] at hplan
          exact Bool.noConfusion ((rfl : planEmpty (planOf [] []) = true).symm.trans hplan)
    unfold mainRun
    dsimp only
    rw [if_neg (show ¬((source.isEmpty && (deviceListing fs).isEmpty) = true)
      from fun h => Bool.noConfusion (h1.symm.trans h))]
    rw [if_neg (show ¬(planEmpty (planOf source (deviceListing fs)) = true)
      from fun h => Bool.noConfusion (hplan.symm.trans h))]
    have hw : decide (spaceNeeded source (planOf source (deviceListing fs)) >
        freeSpace) = true := decide_eq_true hspace
    by_cases h3 : (!pyAffirm response) = true
    · rw [if_pos h3]
      exact ⟨hw, rfl⟩
    · rw [if_neg h3]
      exact ⟨hw, rfl⟩

/-- C6 witness: a nonempty plan with insufficient free space and a
declining answer — the warning fires, the prompt is reached, and the
filesystem is untouched. -/
theorem main_confirmation_gate_w :
    pyAffirm "n" = false ∧
    planEmpty (planOf [(RelPath.root "a.mp3", 5)]
      (deviceListing ⟨[], false⟩)) = false ∧
    spaceNeeded [(RelPath.root "a.mp3", 5)]
      (planOf [(RelPath.root "a.mp3", 5)] (deviceListing ⟨[], false⟩)) > 0 ∧
    ((mainRun (some ⟨[], false⟩) 0 [(RelPath.root "a.mp3", 5)] "n"
        oAll).fsAfter = some ⟨[], false⟩ ∧
      (mainRun (some ⟨[], false⟩) 0 [(RelPath.root "a.mp3", 5)] "n"
        oAll).copied = 0 ∧
      (mainRun (some ⟨[], false⟩) 0 [(RelPath.root "a.mp3", 5)] "n"
        oAll).removed = 0 ∧
      (mainRun (some ⟨[], false⟩) 0 [(RelPath.root "a.mp3", 5)] "n"
        oAll).errors = []) ∧
    ((mainRun (some ⟨[], false⟩) 0 [(RelPath.root "a.mp3", 5)] "n"
        oAll).warned = true ∧
      (mainRun (some ⟨[], false⟩) 0 [(RelPath.root "a.mp3", 5)] "n"
        oAll).prompted = true) :=
  ⟨by decide, by decide, by decide,
    (main_confirmation_gate ⟨[], false⟩ 0 [(RelPath.root "a.mp3", 5)] "n"
      oAll).1 (by decide),
    (main_confirmation_gate ⟨[], false⟩ 0 [(RelPath.root "a.mp3", 5)] "n"
      oAll).2 (by decide) (by decide)⟩

/-! ### Per-entry behavior of sync_files -/

/-- C5: sync_files never creates a directory; an entry whose destination
parent directory is missing is counted as skipped with no error recorded
and no filesystem change; on a copy failure the error is recorded, the
counts are unchanged, the destination holds no file unless the best-effort
cleanup unlink itself failed (in which case the partial file remains and
the failure is ignored), no other key is touched, and the fold continues
with the remaining entries. -/
theorem sync_files_per_entry :
    (∀ (o : FsOracle) (source : List (RelPath × Nat)) (fs : DeviceFS),
      (sync_files o source fs).fs.audiobooksDirExists =
        fs.audiobooksDirExists) ∧
    (∀ (o : FsOracle) (st : SyncState) (e : RelPath × Nat),
      parentExists st.fs e.1 = false →
      syncStep o st e = { st with skipped := st.skipped + 1 }) ∧
    (∀ (o : FsOracle) (st : SyncState) (e : RelPath × Nat),
      parentExists st.fs e.1 = true → sameSize st.fs e.1 e.2 = false →
      o.copyOk e.1 = false →
      (syncStep o st e).errors = st.errors ++ [e.1] ∧
      (syncStep o st e).copied = st.copied ∧
      (syncStep o st e).skipped = st.skipped ∧
      lookupSize (syncStep o st e).fs.files e.1 =
        (match o.afterFail e.1 with
         | none => none
         | some n => if o.cleanupOk e.1 then none else some n) ∧
      (∀ k, k ≠ e.1 →
        lookupSize (syncStep o st e).fs.files k =
          lookupSize st.fs.files k)) ∧
    (∀ (o : FsOracle) (st : SyncState) (e : RelPath × Nat)
        (rest : List (RelPath × Nat)),
      List.foldl (syncStep o) st (e :: rest) =
        List.foldl (syncStep o) (syncStep o st e) rest) := by
  refine ⟨?_, ?_, ?_, ?_⟩
  · intro o source fs
    exact syncFold_dir o source ⟨fs, 0, 0, []⟩
  · intro o st e h
    simp [syncStep, h]
  · intro o st e h1 h2 h3
    refine ⟨?_, ?_, ?_, ?_, ?_⟩
    · simp [syncStep, h1, h2, h3]
    · simp [syncStep, h1, h2, h3]
    · simp [syncStep, h1, h2, h3]
    · simp only [syncStep, h1, h2, h3, Bool.not_true, Bool.false_eq_true,
        if_false, failCleanup]
      cases h4 : o.afterFail e.1 with
      | none => simpa using lookupSize_removeFile_self
      | some n =>
        by_cases h5 : o.cleanupOk e.1
        · simp only [h5, if_true]
          simpa using lookupSize_removeFile_self
        · simp only [h5, Bool.false_eq_true, if_false]
          simpa using lookupSize_setFile_self
    · intro k hk
      exact syncStep_lookup_other o st e hk
  · intro o st e rest
    rfl

/-- Oracle on which every copy fails leaving a partial file of size 7
whose cleanup unlink also fails. -/
def oFail : FsOracle :=
  ⟨fun _ => false, fun _ => some 7, fun _ => false, fun _ => true⟩

/-- C5 witness: the per-entry theorem applied to a concrete missing-parent
entry and to a concrete failing copy with a failing cleanup. -/
theorem sync_files_per_entry_w :
    (parentExists (⟨[], false⟩ : DeviceFS) (RelPath.audiobooks "b.mp3") =
        false ∧
      syncStep oAll ⟨⟨[], false⟩, 0, 0, []⟩ (RelPath.audiobooks "b.mp3", 1) =
        ⟨⟨[], false⟩, 0, 1, []⟩) ∧
    (parentExists (⟨[], false⟩ : DeviceFS) (RelPath.root "a.mp3") = true ∧
      sameSize (⟨[], false⟩ : DeviceFS) (RelPath.root "a.mp3") 5 = false ∧
      oFail.copyOk (RelPath.root "a.mp3") = false ∧
      (syncStep oFail ⟨⟨[], false⟩, 0, 0, []⟩ (RelPath.root "a.mp3", 5)).errors
        = [] ++ [RelPath.root "a.mp3"] ∧
      lookupSize (syncStep oFail ⟨⟨[], false⟩, 0, 0, []⟩
          (RelPath.root "a.mp3", 5)).fs.files (RelPath.root "a.mp3") =
        some 7) :=
  ⟨⟨by decide,
    sync_files_per_entry.2.1 oAll ⟨⟨[], false⟩, 0, 0, []⟩
      (RelPath.audiobooks "b.mp3", 1) (by decide)⟩,
    by
      refine ⟨by decide, by decide, by decide, ?_, ?_⟩
      · exact (sync_files_per_entry.2.2.1 oFail ⟨⟨[], false⟩, 0, 0, []⟩
          (RelPath.root "a.mp3", 5) (by decide) (by decide) (by decide)).1
      · have h := (sync_files_per_entry.2.2.1 oFail ⟨⟨[], false⟩, 0, 0, []⟩
          (RelPath.root "a.mp3", 5) (by decide) (by decide) (by decide)).2.2.2.1
        simpa using h⟩

/-! ### Device discovery -/

theorem hasPath_iff {mp : MountPoint} {p : String} :
    hasPath mp p = true ↔ p ∈ mp.paths := by
  simp [hasPath]

/-- C7 counterexample: when /media exists but listing it raises a
permission error, find_y1_device does not return none — the exception
propagates (the error case of the model) — refuting the claim that an
unreadable mount root yields none. -/
theorem find_device_unreadable_root_raises :
    find_y1_device ⟨true, false, []⟩ = Except.error () ∧
    find_y1_device ⟨true, false, []⟩ ≠ Except.ok none := by
  refine ⟨rfl, fun h => ?_⟩
  exact Except.noConfusion
    ((rfl : find_y1_device ⟨true, false, []⟩ = Except.error ()).symm.trans h)

/-- C7 amended: find_y1_device returns none when the mount root does not
exist or when no candidate mount point is accepted; a permission error
while listing one user's mount points is swallowed (that user contributes
no mounts), but a permission error listing the mount root itself
propagates as an exception rather than returning none; and a candidate is
accepted exactly when it contains the nested vendor marker directory, or
it contains a Themes directory and at least one of the three known
wallpaper filenames exists directly under the mount point. -/
theorem find_device_behavior :
    (∀ m : MediaRoot, m.present = false →
      find_y1_device m = Except.ok none) ∧
    (∀ m : MediaRoot, m.present = true → m.readable = true →
      (∀ u ∈ m.users, ∀ mp ∈ u.mounts, mountAccepted mp = false) →
      find_y1_device m = Except.ok none) ∧
    (∀ u : UserDir, u.readable = false → scanUser u = none) ∧
    (∀ mp : MountPoint, mountAccepted mp = true ↔
      (y1Marker ∈ mp.paths ∨
        ("Themes" ∈ mp.paths ∧ ∃ w ∈ y1ThemeFiles, w ∈ mp.paths))) := by
  refine ⟨?_, ?_, ?_, ?_⟩
  · intro m h
    simp [find_y1_device, h]
  · intro m hp hr hacc
    simp only [find_y1_device, hp, hr, Bool.not_true, Bool.false_eq_true,
      if_false]
    have hnone : m.users.findSome? scanUser = none := by
      rw [List.findSome?_eq_none_iff]
      intro u hu
      unfold scanUser
      by_cases hd : u.isDir
      · by_cases hur : u.readable
        · simp only [hd, hur, Bool.not_true, Bool.false_eq_true, if_false]
          rw [List.findSome?_eq_none_iff]
          intro mp hmp
          unfold scanMount
          rw [if_neg]
          rw [hacc u hu mp hmp]
          simp
        · simp [hur]
      · simp [hd]
    rw [hnone]
  · intro u h
    unfold scanUser
    by_cases hd : u.isDir
    · simp [hd, h]
    · simp [hd]
  · intro mp
    simp only [mountAccepted, Bool.or_eq_true, Bool.and_eq_true,
      List.any_eq_true, hasPath_iff]

/-- C7 witness: the amended theorem applied at a concrete absent mount
root, at a concrete root with no accepted candidate, and at a concrete
unreadable user directory. -/
theorem find_device_behavior_w :
    ((⟨false, true, []⟩ : MediaRoot).present = false ∧
      find_y1_device ⟨false, true, []⟩ = Except.ok none) ∧
    (find_y1_device ⟨true, true, [⟨true, true, [⟨true, ["Music"]⟩]⟩]⟩ =
      Except.ok none) ∧
    ((⟨true, false, [⟨true, ["Themes", "globalWallpaper.jpg"]⟩]⟩ :
        UserDir).readable = false ∧
      scanUser ⟨true, false, [⟨true, ["Themes", "globalWallpaper.jpg"]⟩]⟩ =
        none) :=
  ⟨⟨rfl, find_device_behavior.1 ⟨false, true, []⟩ rfl⟩,
    find_device_behavior.2.1 ⟨true, true, [⟨true, true, [⟨true, ["Music"]⟩]⟩]⟩
      rfl rfl (by decide),
    ⟨rfl, find_device_behavior.2.2.1
      ⟨true, false, [⟨true, ["Themes", "globalWallpaper.jpg"]⟩]⟩ rfl⟩⟩

/-! ### Enumeration characterization -/

theorem mem_root_source {r : ScanRoot} {n : String} :
    RelPath.root n ∈ get_source_mp3s r ↔
      ∃ e ∈ r.entries, e.name = n ∧ e.isFile = true ∧ isMp3Name n = true ∧
        EXCLUDE_FILES.contains n = false := by
  unfold get_source_mp3s
  rw [List.mem_append]
  constructor
  · rintro (h | h)
    · rcases List.mem_map.mp h with ⟨e, he, heq⟩
      rcases List.mem_filter.mp he with ⟨hmem, hcond⟩
      have hname : e.name = n := by injection heq
      simp only [Bool.and_eq_true, Bool.not_eq_true'] at hcond
      exact ⟨e, hmem, hname, hcond.1.1, hname ▸ hcond.1.2, hname ▸ hcond.2⟩
    · exfalso
      cases hab : r.audiobooks with
      | none => rw [hab] at h; simp at h
      | some es =>
        rw [hab] at h
        rcases List.mem_map.mp h with ⟨e, _, heq⟩
        exact RelPath.noConfusion heq
  · rintro ⟨e, hmem, hname, hfile, hmp3, hexcl⟩
    left
    refine List.mem_map.mpr ⟨e, List.mem_filter.mpr ⟨hmem, ?_⟩, by rw [hname]⟩
    simp only [hfile, hname, hmp3, Bool.true_and, Bool.and_eq_true,
      Bool.not_eq_true']
    exact hexcl

theorem mem_audio_source {r : ScanRoot} {n : String} :
    RelPath.audiobooks n ∈ get_source_mp3s r ↔
      ∃ es, r.audiobooks = some es ∧
        ∃ e ∈ es, e.name = n ∧ e.isFile = true ∧ isMp3Name n = true := by
  unfold get_source_mp3s
  rw [List.mem_append]
  constructor
  · rintro (h | h)
    · rcases List.mem_map.mp h with ⟨e, _, heq⟩
      exact RelPath.noConfusion heq
    · cases hab : r.audiobooks with
      | none => rw [hab] at h; simp at h
      | some es =>
        rw [hab] at h
        rcases List.mem_map.mp h with ⟨e, he, heq⟩
        rcases List.mem_filter.mp he with ⟨hmem, hcond⟩
        have hname : e.name = n := by injection heq
        simp only [Bool.and_eq_true] at hcond
        exact ⟨es, rfl, e, hmem, hname, hcond.1, hname ▸ hcond.2⟩
  · rintro ⟨es, hes, e, hmem, hname, hfile, hmp3⟩
    right
    rw [hes]
    refine List.mem_map.mpr ⟨e, List.mem_filter.mpr ⟨hmem, ?_⟩, by rw [hname]⟩
    simp [hfile, hname, hmp3]

theorem mem_root_device {r : ScanRoot} {n : String} :
    RelPath.root n ∈ get_device_mp3s r ↔
      ∃ e ∈ r.entries, e.name = n ∧ e.isFile = true ∧ isMp3Name n = true := by
  unfold get_device_mp3s
  rw [List.mem_append]
  constructor
  · rintro (h | h)
    · rcases List.mem_map.mp h with ⟨e, he, heq⟩
      rcases List.mem_filter.mp he with ⟨hmem, hcond⟩
      have hname : e.name = n := by injection heq
      simp only [Bool.and_eq_true] at hcond
      exact ⟨e, hmem, hname, hcond.1, hname ▸ hcond.2⟩
    · exfalso
      cases hab : r.audiobooks with
      | none => rw [hab] at h; simp at h
      | some es =>
        rw [hab] at h
        rcases List.mem_map.mp h with ⟨e, _, heq⟩
        exact RelPath.noConfusion heq
  · rintro ⟨e, hmem, hname, hfile, hmp3⟩
    left
    refine List.mem_map.mpr ⟨e, List.mem_filter.mpr ⟨hmem, ?_⟩, by rw [hname]⟩
    simp [hfile, hname, hmp3]

theorem mem_audio_device {r : ScanRoot} {n : String} :
    RelPath.audiobooks n ∈ get_device_mp3s r ↔
      ∃ es, r.audiobooks = some es ∧
        ∃ e ∈ es, e.name = n ∧ e.isFile = true ∧ isMp3Name n = true := by
  unfold get_device_mp3s
  rw [List.mem_append]
  constructor
  · rintro (h | h)
    · rcases List.mem_map.mp h with ⟨e, _, heq⟩
      exact RelPath.noConfusion heq
    · cases hab : r.audiobooks with
      | none => rw [hab] at h; simp at h
      | some es =>
        rw [hab] at h
        rcases List.mem_map.mp h with ⟨e, he, heq⟩
        rcases List.mem_filter.mp he with ⟨hmem, hcond⟩
        have hname : e.name = n := by injection heq
        simp only [Bool.and_eq_true] at hcond
        exact ⟨es, rfl, e, hmem, hname, hcond.1, hname ▸ hcond.2⟩
  · rintro ⟨es, hes, e, hmem, hname, hfile, hmp3⟩
    right
    rw [hes]
    refine List.mem_map.mpr ⟨e, List.mem_filter.mpr ⟨hmem, ?_⟩, by rw [hname]⟩
    simp [hfile, hname, hmp3]

/-- C8: both enumerations map exactly the direct children with a
case-insensitive mp3 extension — root-level files under their bare
filename, files of an existing Audiobooks subdirectory under the
Audiobooks prefix — ignoring everything else, with the denylist applied
only to the source root-level scan and nowhere else. -/
theorem enumeration_characterization (r : ScanRoot) (n : String) :
    (RelPath.root n ∈ get_source_mp3s r ↔
      ∃ e ∈ r.entries, e.name = n ∧ e.isFile = true ∧ isMp3Name n = true ∧
        EXCLUDE_FILES.contains n = false) ∧
    (RelPath.audiobooks n ∈ get_source_mp3s r ↔
      ∃ es, r.audiobooks = some es ∧
        ∃ e ∈ es, e.name = n ∧ e.isFile = true ∧ isMp3Name n = true) ∧
    (RelPath.root n ∈ get_device_mp3s r ↔
      ∃ e ∈ r.entries, e.name = n ∧ e.isFile = true ∧ isMp3Name n = true) ∧
    (RelPath.audiobooks n ∈ get_device_mp3s r ↔
      ∃ es, r.audiobooks = some es ∧
        ∃ e ∈ es, e.name = n ∧ e.isFile = true ∧ isMp3Name n = true) :=
  ⟨mem_root_source, mem_audio_source, mem_root_device, mem_audio_device⟩

/-! ### Successful sync followed by orphan removal reconciles the device -/

theorem sync_files_dir (o : FsOracle) (source : List (RelPath × Nat))
    (fs : DeviceFS) :
    (sync_files o source fs).fs.audiobooksDirExists =
      fs.audiobooksDirExists :=
  syncFold_dir o source ⟨fs, 0, 0, []⟩

theorem remove_orphans_dir (o : FsOracle)
    (source listing : List (RelPath × Nat)) (fs : DeviceFS) :
    (remove_orphans o source listing fs).fs.audiobooksDirExists =
      fs.audiobooksDirExists :=
  removeFold_dir o source listing ⟨fs, 0, []⟩

theorem sync_files_lookup (o : FsOracle) (source : List (RelPath × Nat))
    (fs : DeviceFS) (hnd : (keysOf source).Nodup)
    (hp : ∀ e ∈ source, parentExists fs e.1 = true)
    (hc : ∀ k, o.copyOk k = true) :
    (∀ k s, lookupSize source k = some s →
      lookupSize (sync_files o source fs).fs.files k = some s) ∧
    (∀ k, lookupSize source k = none →
      lookupSize (sync_files o source fs).fs.files k =
        lookupSize fs.files k) :=
  syncFold_lookup o source ⟨fs, 0, 0, []⟩ hnd hp (fun e _ => hc e.1)

theorem remove_orphans_lookup (o : FsOracle)
    (source listing : List (RelPath × Nat)) (fs : DeviceFS)
    (hu : ∀ k, o.unlinkOk k = true) (k : RelPath) :
    lookupSize (remove_orphans o source listing fs).fs.files k =
      if k ∈ keysOf listing ∧ memKey source k = false then none
      else lookupSize fs.files k :=
  removeFold_lookup o source listing hu ⟨fs, 0, []⟩ k

/-- C2: when every destination parent directory exists on the device and
every copy and unlink succeeds, sync_files followed by remove_orphans
leaves the device's file map exactly equal to the source map, and the plan
recomputed on the resulting state is empty. -/
theorem apply_plan_syncs (o : FsOracle) (source : List (RelPath × Nat))
    (fs : DeviceFS)
    (hnd : (keysOf source).Nodup)
    (hwf : ∀ e ∈ fs.files, parentExists fs e.1 = true)
    (hpar : ∀ e ∈ source, parentExists fs e.1 = true)
    (hcopy : ∀ k, o.copyOk k = true)
    (hunlink : ∀ k, o.unlinkOk k = true) :
    (∀ k, lookupSize (applySync o source fs).files k = lookupSize source k) ∧
    planEmpty (planOf source (deviceListing (applySync o source fs))) =
      true := by
  have hlist : deviceListing fs = fs.files := List.filter_eq_self.mpr hwf
  have hsl := sync_files_lookup o source fs hnd hpar hcopy
  have hmain : ∀ k,
      lookupSize (applySync o source fs).files k = lookupSize source k := by
    intro k
    unfold applySync
    rw [hlist, remove_orphans_lookup o source fs.files _ hunlink k]
    by_cases hmem : memKey source k = true
    · rw [if_neg (fun hc' => Bool.noConfusion (hmem.symm.trans hc'.2))]
      rcases Option.isSome_iff_exists.mp
        (lookupSize_isSome_iff.mpr (memKey_eq_true_iff.mp hmem)) with ⟨s, hs⟩
      rw [hs]
      exact hsl.1 k s hs
    · have hmf : memKey source k = false := by
        cases h : memKey source k
        · rfl
        · exact absurd h hmem
      have hnone : lookupSize source k = none :=
        lookupSize_eq_none_iff.mpr (fun h => hmem (memKey_eq_true_iff.mpr h))
      rw [hnone]
      by_cases hin : k ∈ keysOf fs.files
      · rw [if_pos ⟨hin, hmf⟩]
      · rw [if_neg (fun hc' => hin hc'.1), hsl.2 k hnone]
        exact lookupSize_eq_none_iff.mpr hin
  refine ⟨hmain, ?_⟩
  have hdir : (applySync o source fs).audiobooksDirExists =
      fs.audiobooksDirExists := by
    unfold applySync
    rw [remove_orphans_dir, sync_files_dir]
  have hwf' : ∀ e ∈ (applySync o source fs).files,
      parentExists (applySync o source fs) e.1 = true := by
    intro e he
    have hsome : (lookupSize (applySync o source fs).files e.1).isSome =
        true :=
      lookupSize_isSome_iff.mpr (mem_keysOf.mpr ⟨e.2, by simpa using he⟩)
    rw [hmain e.1] at hsome
    rcases mem_keysOf.mp (lookupSize_isSome_iff.mp hsome) with ⟨s, hs⟩
    rw [parentExists_congr hdir e.1]
    exact hpar (e.1, s) hs
  have hlist' : deviceListing (applySync o source fs) =
      (applySync o source fs).files := List.filter_eq_self.mpr hwf'
  rw [hlist']
  have hTC : (source.filter
      fun e => !(memKey (applySync o source fs).files e.1)) = [] := by
    rw [List.filter_eq_nil_iff]
    intro e he
    have hsome : (lookupSize source e.1).isSome = true :=
      lookupSize_isSome_iff.mpr (mem_keysOf.mpr ⟨e.2, by simpa using he⟩)
    rw [← hmain e.1] at hsome
    have hm : memKey (applySync o source fs).files e.1 = true :=
      memKey_eq_true_iff.mpr (lookupSize_isSome_iff.mp hsome)
    simp [hm]
  have hTU : (source.filter
      fun e => memKey (applySync o source fs).files e.1 &&
        sizeDiffers (applySync o source fs).files e) = [] := by
    rw [List.filter_eq_nil_iff]
    intro e he
    have hs : lookupSize source e.1 = some e.2 :=
      lookupSize_of_mem_nodup hnd (by simpa using he)
    have hf : lookupSize (applySync o source fs).files e.1 = some e.2 := by
      rw [hmain e.1]; exact hs
    have hd : sizeDiffers (applySync o source fs).files e = false := by
      simp [sizeDiffers, hf]
    simp [hd]
  have hTD : ((keysOf (applySync o source fs).files).filter
      fun k => !(memKey source k)) = [] := by
    rw [List.filter_eq_nil_iff]
    intro k hk
    have hsome : (lookupSize (applySync o source fs).files k).isSome =
        true := lookupSize_isSome_iff.mpr hk
    rw [hmain k] at hsome
    have hm : memKey source k = true :=
      memKey_eq_true_iff.mpr (lookupSize_isSome_iff.mp hsome)
    simp [hm]
  show planEmpty (planOf source (applySync o source fs).files) = true
  unfold planEmpty planOf
  dsimp only
  rw [hTC, hTU, hTD]
  rfl

/-- Concrete source mapping for the reconciliation witness. -/
def srcW : List (RelPath × Nat) :=
  [(RelPath.root "a.mp3", 5), (RelPath.audiobooks "b.mp3", 3)]

/-- Concrete device state for the reconciliation witness: one orphan, one
stale copy of a source file, Audiobooks directory present. -/
def fsW : DeviceFS :=
  ⟨[(RelPath.root "c.mp3", 7), (RelPath.root "a.mp3", 4)], true⟩

/-- C2 witness: the reconciliation theorem applied to a concrete source
and device state on the all-success oracle. -/
theorem apply_plan_syncs_w :
    (keysOf srcW).Nodup ∧
    (∀ e ∈ fsW.files, parentExists fsW e.1 = true) ∧
    (∀ e ∈ srcW, parentExists fsW e.1 = true) ∧
    (∀ k, oAll.copyOk k = true) ∧
    (∀ k, oAll.unlinkOk k = true) ∧
    ((∀ k, lookupSize (applySync oAll srcW fsW).files k =
        lookupSize srcW k) ∧
      planEmpty (planOf srcW (deviceListing (applySync oAll srcW fsW))) =
        true) :=
  ⟨by decide, by decide, by decide, fun _ => rfl, fun _ => rfl,
    apply_plan_syncs oAll srcW fsW (by decide) (by decide) (by decide)
      (fun _ => rfl) (fun _ => rfl)⟩

end MP3Sync
